import Mathlib

/-!
Verification of the message-formatting and activity-timing core of
`logutil.py` (structured-event logging helpers).

The embedding translates the module's pure formatting functions
(`_format_kvp`, `_default_message`, the `_MESSAGE_FORMATS` template
table, duration rendering) into Lean functions, and the stateful
operations (`event`, `start`, `end`, the wrapping combinators) into
explicit state passing over a `World` holding the timing source and the
backend log.  Conventions of the embedding:

* Python wall-clock floats are idealized as exact rationals; the timing
  source `time.time()` is a stream `World.times` consumed one reading
  per call (`World.tick` counts consumed readings).
* The module globals `include_timestamp` and `DEFAULT_LEVEL`, read at
  call time by the source, are passed as explicit arguments
  (`inclTs`, `dl`).
* `format_timestamp` (`datetime.fromtimestamp(t).isoformat()`) depends
  on the process's local timezone, so the rendering function is an
  explicit argument `fmtTs : Rat -> String` of each operation.
* Python `str.format` applied to the constant templates is embedded by
  representing each template as a list of `Piece`s (literal text or a
  named placeholder) joined by `pyFormat`; the formatting dictionary
  `d` built by the source becomes the record `FmtArgs`.  Keys present
  in `d` but referenced by no template (notably `status`) are fields of
  `FmtArgs` that no constant template reads.
* Attribute values: the source branches only on string-ness
  (`isinstance(v, six.string_types)`), rendering every non-string via
  `str()`.  `Value` covers string, integer, boolean and null with their
  exact Python renderings.  Float attribute values are omitted: their
  Python rendering is the shortest round-trip repr of a binary64,
  which is floating-point behaviour outside this embedding; no claim
  below depends on them, and their renderings contain neither
  separator character.
-/

namespace Logutil

/-- The apostrophe character, written via its code point. -/
def squote : Char := Char.ofNat 39

/-- The two-character rendering of an empty string value (source: `v = "''"`). -/
def emptyQuotes : String := String.mk [squote, squote]

/-- Separator between the templated message prefix and the key/value
section (source constant `_KVPSECSEP = ' ; '`). -/
def _KVPSECSEP : String := " ; "

/-- Separator between one key=value pair and another
(source constant `_KVPSEP = ','`). -/
def _KVPSEP : String := ","

/-- Separator between key and value (source constant `_KVSEP = '='`). -/
def _KVSEP : String := "="

/-- Python `logging.INFO`. -/
def loggingINFO : Int := 20

/-- Decide whether `needle` is a prefix of `hay` (character lists). -/
def isPre : List Char → List Char → Bool
  | [], _ => true
  | _ :: _, [] => false
  | a :: as, b :: bs => a == b && isPre as bs

/-- Python substring containment `needle in hay`, on character lists. -/
def containsSub : List Char → List Char → Bool
  | needle, [] => needle.isEmpty
  | needle, c :: rest => isPre needle (c :: rest) || containsSub needle rest

/-- Python `needle in hay` for strings (substring containment). -/
def pyIn (needle hay : String) : Bool :=
  containsSub needle.data hay.data

/-- Python `str.join`: `joinSep sep ss` interleaves `sep` between the
elements of `ss`. -/
def joinSep (sep : String) : List String → String
  | [] => ""
  | [x] => x
  | x :: y :: tl => x ++ sep ++ joinSep sep (y :: tl)

/-- Source: `v.replace(',', '\\,')` — left-to-right scan replacing each
comma with backslash-comma. -/
def replaceCommaChars : List Char → List Char
  | [] => []
  | c :: cs =>
    if c = ',' then '\\' :: ',' :: replaceCommaChars cs
    else c :: replaceCommaChars cs

/-- Python `str.replace(',', '\\,')` at the string level. -/
def replaceComma (s : String) : String :=
  String.mk (replaceCommaChars s.data)

/-- Decimal digits of a natural number, least significant first
(fuel-driven so that it reduces by `decide`; `natDigitsRev` supplies
sufficient fuel). -/
def natDigitsRevAux : Nat → Nat → List Char
  | 0, _ => []
  | fuel + 1, n =>
    if n < 10 then [Nat.digitChar n]
    else Nat.digitChar (n % 10) :: natDigitsRevAux fuel (n / 10)

/-- Decimal digits of a natural number, least significant first. -/
def natDigitsRev (n : Nat) : List Char :=
  natDigitsRevAux (n + 1) n

/-- Python `str` of a natural number. -/
def natRepr (n : Nat) : String :=
  String.mk (natDigitsRev n).reverse

/-- Python `str` of an integer. -/
def intRepr (n : Int) : String :=
  if n < 0 then "-" ++ natRepr n.natAbs else natRepr n.natAbs

/-- Attribute values handed to the encoder (see the header note on the
omission of float values). -/
inductive Value where
  | vStr (s : String)
  | vInt (n : Int)
  | vBool (b : Bool)
  | vNone
deriving DecidableEq

/-- The value string placed into a pair by `_format_kvp`'s loop body
(source lines 239-245): strings containing the pair separator are
escaped, empty strings render as two quotes, any other value renders
via Python `str`. -/
def renderedValue : Value → String
  | .vStr s =>
    if pyIn _KVPSEP s then replaceComma s
    else if s.length = 0 then emptyQuotes
    else s
  | .vInt n => intRepr n
  | .vBool b => if b then "True" else "False"
  | .vNone => "None"

/-- One `key=value` entry as rendered by `_format_kvp`
(source: `'{}{}{}'.format(k, _KVSEP, v)`). -/
def pairString (kv : String × Value) : String :=
  kv.1 ++ _KVSEP ++ renderedValue kv.2

/-- Source `_format_kvp`: render each entry as `key=value` and join the
entries with the pair separator.  The attribute dictionary is embedded
as an association list (its iteration order). -/
def _format_kvp (d : List (String × Value)) : String :=
  joinSep _KVPSEP (d.map pairString)

/-- The guard `_format_kvp(kvp) if kvp else ''` used by
`event`/`start`/`end`. -/
def kvpStringOf (kvp : List (String × Value)) : String :=
  if kvp.isEmpty then "" else _format_kvp kvp

/-- Message shapes (the keys of the `_MESSAGE_FORMATS` dictionaries). -/
inductive MType where
  | entry
  | exit
  | exit_nodur
  | event
deriving DecidableEq

/-- A fragment of a Python format template: literal text or one of the
named placeholders appearing in `_MESSAGE_FORMATS`. -/
inductive Piece where
  | lit (s : String)
  | timestamp
  | func_name
  | kvp
  | dur
  | status
deriving DecidableEq

/-- The formatting dictionary `d` built by `event`/`start`/`end` before
calling `fmt.format(**d)`.  `dur` and `status` are present only on some
paths in the source; templates that do not reference a key never read
it, so absent keys are modelled by unused default fields. -/
structure FmtArgs where
  timestamp : String
  func_name : String
  kvp : String
  dur : String
  status : Int

/-- Rendering of a single template piece from the dictionary. -/
def renderPiece (a : FmtArgs) : Piece → String
  | .lit s => s
  | .timestamp => a.timestamp
  | .func_name => a.func_name
  | .kvp => a.kvp
  | .dur => a.dur
  | .status => intRepr a.status

/-- Python `fmt.format(**d)` for a constant template. -/
def pyFormat (tpl : List Piece) (a : FmtArgs) : String :=
  String.join (tpl.map (renderPiece a))

/-- Source `_MESSAGE_FORMATS` (lines 37-46): two template families
indexed by the `include_timestamp` flag.  Note that in the
with-timestamp family the `exit_nodur` template, exactly as in the
source, has no timestamp placeholder. -/
def _MESSAGE_FORMATS (withTs : Bool) (m : MType) : List Piece :=
  match withTs, m with
  | false, .entry => [.func_name, .lit ".begin", .lit _KVPSECSEP, .kvp]
  | false, .exit =>
      [.func_name, .lit ".end (", .dur, .lit ")", .lit _KVPSECSEP, .kvp]
  | false, .exit_nodur => [.func_name, .lit ".end", .lit _KVPSECSEP, .kvp]
  | false, .event => [.func_name, .lit _KVPSECSEP, .kvp]
  | true, .entry =>
      [.timestamp, .lit " ", .func_name, .lit ".begin", .lit _KVPSECSEP, .kvp]
  | true, .exit =>
      [.timestamp, .lit " ", .func_name, .lit ".end (", .dur, .lit ")",
       .lit _KVPSECSEP, .kvp]
  | true, .exit_nodur => [.func_name, .lit ".end", .lit _KVPSECSEP, .kvp]
  | true, .event => [.timestamp, .lit " ", .func_name, .lit _KVPSECSEP, .kvp]

/-- Source `_default_message`: select the template for a shape under the
current `include_timestamp` flag. -/
def _default_message (inclTs : Bool) (m : MType) : List Piece :=
  _MESSAGE_FORMATS inclTs m

/-- Floor of a rational (denominators are positive, so floor division
of numerator by denominator). -/
def ratFloor (q : Rat) : Int :=
  q.num.fdiv q.den

/-- Round a rational to the nearest integer, ties to even — the
rounding used by fixed-point decimal formatting. -/
def roundHalfEven (q : Rat) : Int :=
  let n := ratFloor q
  let r := q - (n : Rat)
  if r < 1 / 2 then n
  else if 1 / 2 < r then n + 1
  else if n % 2 = 0 then n else n + 1

/-- Six fractional digits of `m` (zero padded); `m` is always the
residue of a rounding modulo 1000000. -/
def pad6 (m : Nat) : String :=
  String.mk
    [Nat.digitChar (m / 100000 % 10), Nat.digitChar (m / 10000 % 10),
     Nat.digitChar (m / 1000 % 10), Nat.digitChar (m / 100 % 10),
     Nat.digitChar (m / 10 % 10), Nat.digitChar (m % 10)]

/-- Python `'{:.6f}'.format(q)` under exact rational arithmetic: fixed
six fractional digits, round half to even, sign preserved. -/
def format6f (q : Rat) : String :=
  let m := if q < 0 then -q else q
  let n := (roundHalfEven (m * 1000000)).toNat
  (if q < 0 then "-" else "") ++ natRepr (n / 1000000) ++ "." ++ pad6 (n % 1000000)

/-- State visible to the core: the timing source (a stream of readings
with `tick` counting how many were consumed) and the backend log of
(severity, message) emissions. -/
structure World where
  times : Nat → Rat
  tick : Nat
  log : List (Int × String)

/-- One reading of the timing source (`time.time()`). -/
def time_time (w : World) : Rat × World :=
  (w.times w.tick, { w with tick := w.tick + 1 })

/-- One backend emission (`logger.log(level, msg)`). -/
def logger_log (level : Int) (msg : String) (w : World) : World :=
  { w with log := w.log ++ [(level, msg)] }

/-- Source `event` (lines 52-73): read the clock, build the formatting
dictionary, format under the event template (or a caller-supplied
template), emit at the given or default severity, return the
timestamp. -/
def event (fmtTs : Rat → String) (inclTs : Bool) (dl : Int) (name : String)
    (level : Option Int) (fmt : Option (List Piece))
    (kvp : List (String × Value)) (w : World) : Rat × World :=
  let (t0, w1) := time_time w
  let kvp_str := kvpStringOf kvp
  let d : FmtArgs := ⟨fmtTs t0, name, kvp_str, "", 0⟩
  let fmtT := fmt.getD (_default_message inclTs .event)
  let msg := pyFormat fmtT d
  (t0, logger_log (level.getD dl) msg w1)

/-- Source `start` (lines 76-96): like `event` but with the entry
template and no caller-supplied template. -/
def start (fmtTs : Rat → String) (inclTs : Bool) (dl : Int) (name : String)
    (level : Option Int) (kvp : List (String × Value)) (w : World) :
    Rat × World :=
  let (t0, w1) := time_time w
  let kvp_str := kvpStringOf kvp
  let d : FmtArgs := ⟨fmtTs t0, name, kvp_str, "", 0⟩
  let msg := pyFormat (_default_message inclTs .entry) d
  (t0, logger_log (level.getD dl) msg w1)

/-- Source `end` (lines 98-124): read the clock; when a start timestamp
is supplied attach the six-digit duration and use the exit template,
otherwise the exit-without-duration template; emit once. -/
def end_ (fmtTs : Rat → String) (inclTs : Bool) (dl : Int) (name : String)
    (t0 : Option Rat) (level : Option Int) (status_code : Int)
    (kvp : List (String × Value)) (w : World) : World :=
  let (t1, w1) := time_time w
  let kvp_str := kvpStringOf kvp
  match t0 with
  | some t0v =>
    let d : FmtArgs :=
      ⟨fmtTs t1, name, kvp_str, format6f (t1 - t0v), status_code⟩
    logger_log (level.getD dl) (pyFormat (_default_message inclTs .exit) d) w1
  | none =>
    let d : FmtArgs := ⟨fmtTs t1, name, kvp_str, "", status_code⟩
    logger_log (level.getD dl)
      (pyFormat (_default_message inclTs .exit_nodur) d) w1

/-- A Python function object: its `__name__` and a possibly-raising
call (exceptions embedded as `Except`). -/
structure PyFunc (α ε β : Type) where
  fname : String
  call : α → Except ε β

/-- A Python bound-method object: `__name__` and a possibly-raising
call taking the receiver. -/
structure PyMethod (σ α ε β : Type) where
  fname : String
  call : σ → α → Except ε β

/-- Source `wrap_func` (lines 153-178), applied to a function: the
returned wrapper logs `start`, invokes the function (an exception
aborts the remaining statements and propagates), logs `end` with the
timestamp returned by `start`, and returns the value unchanged. -/
def wrap_func {α ε β : Type} (fmtTs : Rat → String) (inclTs : Bool)
    (dl : Int) (name : Option String) (level : Int)
    (kvp : List (String × Value)) (f : PyFunc α ε β) (x : α) (w : World) :
    Except ε β × World :=
  let func_name := name.getD f.fname
  let (t0, w1) := start fmtTs inclTs dl func_name (some level) kvp w
  match f.call x with
  | Except.ok r =>
    (Except.ok r,
     end_ fmtTs inclTs dl func_name (some t0) (some level) 0 kvp w1)
  | Except.error e => (Except.error e, w1)

/-- Source `wrap_method` (lines 126-151): as `wrap_func` but passing
the receiver through to the wrapped method. -/
def wrap_method {σ α ε β : Type} (fmtTs : Rat → String) (inclTs : Bool)
    (dl : Int) (name : Option String) (level : Int)
    (kvp : List (String × Value)) (m : PyMethod σ α ε β) (self : σ) (x : α)
    (w : World) : Except ε β × World :=
  let func_name := name.getD m.fname
  let (t0, w1) := start fmtTs inclTs dl func_name (some level) kvp w
  match m.call self x with
  | Except.ok r =>
    (Except.ok r,
     end_ fmtTs inclTs dl func_name (some t0) (some level) 0 kvp w1)
  | Except.error e => (Except.error e, w1)

/-- `wrap_func` with its `level` argument left at the source default
`logging.INFO`. -/
def wrap_func_default {α ε β : Type} (fmtTs : Rat → String) (inclTs : Bool)
    (dl : Int) (name : Option String) (kvp : List (String × Value))
    (f : PyFunc α ε β) (x : α) (w : World) : Except ε β × World :=
  wrap_func fmtTs inclTs dl name loggingINFO kvp f x w

/-- `wrap_method` with its `level` argument left at the source default
`logging.INFO`. -/
def wrap_method_default {σ α ε β : Type} (fmtTs : Rat → String)
    (inclTs : Bool) (dl : Int) (name : Option String)
    (kvp : List (String × Value)) (m : PyMethod σ α ε β) (self : σ) (x : α)
    (w : World) : Except ε β × World :=
  wrap_method fmtTs inclTs dl name loggingINFO kvp m self x w

end Logutil

namespace Logutil

/-! Helper definitions for the claims: the manual decoding described by
the round-trip claim, and small observation functions. -/

/-- Split a character list at every occurrence of `c` (the manual split
on the pair separator described by the round-trip claim). -/
def splitCharList (c : Char) : List Char → List (List Char)
  | [] => [[]]
  | x :: xs =>
    match splitCharList c xs with
    | [] => [[x]]
    | g :: gs => if x = c then [] :: g :: gs else (x :: g) :: gs

/-- Split one pair at the first occurrence of the key/value separator
(the manual split on the key separator described by the round-trip
claim). -/
def splitKVChars : List Char → List Char × List Char
  | [] => ([], [])
  | x :: xs =>
    if x = '=' then ([], xs)
    else
      let p := splitKVChars xs
      (x :: p.1, p.2)

/-- One decoded pair as (key, value) strings. -/
def splitKV (cs : List Char) : String × String :=
  (String.mk (splitKVChars cs).1, String.mk (splitKVChars cs).2)

/-- The manual decoding from the round-trip claim: split the fragment
on the pair separator and each pair at the key/value separator.  An
empty fragment (the encoding of an empty AttributeSet) holds no
pairs. -/
def decode_kvp (s : String) : List (String × String) :=
  if s.data.isEmpty then [] else (splitCharList ',' s.data).map splitKV

/-- Whether a string begins with a decimal digit (every ISO-8601
timestamp does: it opens with the year). -/
def headDigit (s : String) : Bool :=
  match s.data with
  | [] => false
  | c :: _ => c.isDigit

/-- A decidable check on the claim's hypothesis that a string attribute
value is free of the pair separator (non-string values pass). -/
def strValueNoComma : Value → Bool
  | .vStr s => decide (',' ∉ s.data)
  | _ => true

/-- The shape "digits, then one dot, then exactly six digits": how a
non-negative fixed six-fractional-digit rendering must look. -/
def sixFracShape (s : String) : Bool :=
  match splitCharList '.' s.data with
  | [a, b] => a.all Char.isDigit && !a.isEmpty && b.all Char.isDigit &&
      decide (b.length = 6)
  | _ => false

/-- A fixed trivial timestamp rendering used by concrete evaluations. -/
def tsConst : Rat → String := fun _ => ""

/-- A concrete initial world for concrete evaluations. -/
def w0 : World := ⟨fun _ => 0, 0, []⟩

/-! Basic lemmas. -/

theorem strMkData (s : String) : String.mk s.data = s := by
  cases s; rfl

theorem data_eq_nil_iff (s : String) : s.data = [] ↔ s = "" := by
  constructor
  · intro h
    have := congrArg String.mk h
    simpa [strMkData] using this
  · intro h; subst h; rfl

theorem containsSub_singleton (c : Char) (l : List Char) :
    containsSub [c] l = true ↔ c ∈ l := by
  induction l with
  | nil => simp [containsSub]
  | cons h t ih =>
    simp [containsSub, isPre, ih, List.mem_cons]

theorem pyIn_kvpsep (s : String) : pyIn _KVPSEP s = true ↔ ',' ∈ s.data := by
  have : (_KVPSEP : String).data = [','] := rfl
  simp only [pyIn, this]
  exact containsSub_singleton ',' s.data

theorem pyIn_kvpsep_false {s : String} (h : ',' ∉ s.data) :
    pyIn _KVPSEP s = false := by
  rw [← Bool.not_eq_true]
  simp [pyIn_kvpsep, h]

end Logutil

namespace Logutil

theorem splitCharList_ne_nil (c : Char) (l : List Char) :
    splitCharList c l ≠ [] := by
  induction l with
  | nil => simp [splitCharList]
  | cons x xs ih =>
    cases h : splitCharList c xs with
    | nil => exact absurd h ih
    | cons g gs =>
      simp only [splitCharList, h]
      split <;> simp

theorem splitCharList_of_not_mem {c : Char} {l : List Char} (h : c ∉ l) :
    splitCharList c l = [l] := by
  induction l with
  | nil => rfl
  | cons x xs ih =>
    have hx : x ≠ c := fun hc => h (hc ▸ List.mem_cons_self x xs)
    have hxs : c ∉ xs := fun hc => h (List.mem_cons_of_mem x hc)
    simp only [splitCharList, ih hxs]
    simp [hx]

theorem splitCharList_append {c : Char} {a b : List Char} (h : c ∉ a) :
    splitCharList c (a ++ c :: b) = a :: splitCharList c b := by
  induction a with
  | nil =>
    simp only [List.nil_append, splitCharList]
    rcases hb : splitCharList c b with _ | ⟨g, gs⟩
    · exact absurd hb (splitCharList_ne_nil c b)
    · simp
  | cons x a' ih =>
    have hx : x ≠ c := fun hc => h (hc ▸ List.mem_cons_self x a')
    have ha' : c ∉ a' := fun hc => h (List.mem_cons_of_mem x hc)
    rw [List.cons_append]
    simp only [splitCharList, ih ha']
    simp [hx]

theorem splitKVChars_spec {k : List Char} (v : List Char) (h : '=' ∉ k) :
    splitKVChars (k ++ '=' :: v) = (k, v) := by
  induction k with
  | nil => simp [splitKVChars]
  | cons x k' ih =>
    have hx : x ≠ '=' := fun hc => h (hc ▸ List.mem_cons_self x k')
    have hk' : '=' ∉ k' := fun hc => h (List.mem_cons_of_mem x hc)
    simp [splitKVChars, hx, ih hk']

theorem digitChar_isDigit {d : Nat} (h : d < 10) :
    (Nat.digitChar d).isDigit = true := by
  interval_cases d <;> decide

theorem natDigitsRevAux_digits (fuel : Nat) :
    ∀ n, ∀ ch ∈ natDigitsRevAux fuel n, ch.isDigit = true := by
  induction fuel with
  | zero => intro n ch h; simp [natDigitsRevAux] at h
  | succ f ih =>
    intro n ch h
    by_cases hn : n < 10
    · simp [natDigitsRevAux, hn] at h
      exact h ▸ digitChar_isDigit hn
    · simp [natDigitsRevAux, hn] at h
      rcases h with h | h
      · exact h ▸ digitChar_isDigit (Nat.mod_lt _ (by norm_num))
      · exact ih _ ch h

theorem natRepr_digits (n : Nat) : ∀ ch ∈ (natRepr n).data, ch.isDigit = true := by
  intro ch h
  simp only [natRepr, natDigitsRev] at h
  exact natDigitsRevAux_digits _ _ ch (List.mem_reverse.mp h)

theorem natDigitsRev_ne_nil (n : Nat) : natDigitsRev n ≠ [] := by
  simp only [natDigitsRev, natDigitsRevAux]
  split <;> simp

theorem isDigit_not_special {c : Char} (h : c.isDigit = true) :
    c ≠ ',' ∧ c ≠ '=' ∧ c ≠ '.' := by
  refine ⟨?_, ?_, ?_⟩ <;> intro hc <;> rw [hc] at h <;> exact absurd h (by decide)

theorem mem_intRepr {n : Int} {ch : Char} (h : ch ∈ (intRepr n).data) :
    ch = '-' ∨ ch.isDigit = true := by
  simp only [intRepr] at h
  split at h
  · rw [String.data_append] at h
    rcases List.mem_append.mp h with h | h
    · left; simpa using h
    · right; exact natRepr_digits _ ch h
  · right; exact natRepr_digits _ ch h

theorem renderedValue_no_comma {v : Value}
    (hv : strValueNoComma v = true) : ',' ∉ (renderedValue v).data := by
  cases v with
  | vStr s =>
    have hs : ',' ∉ s.data := by simpa [strValueNoComma] using hv
    simp only [renderedValue, pyIn_kvpsep_false hs, Bool.false_eq_true,
      if_false]
    split
    · decide
    · simpa using hs
  | vInt n =>
    intro hc
    rcases mem_intRepr hc with h | h
    · exact absurd h (by decide)
    · exact absurd h (by decide)
  | vBool b => cases b <;> decide
  | vNone => decide

theorem pairString_data (kv : String × Value) :
    (pairString kv).data = kv.1.data ++ '=' :: (renderedValue kv.2).data := by
  simp [pairString, _KVSEP, String.data_append]

theorem pairString_no_comma {kv : String × Value}
    (hk : ',' ∉ kv.1.data) (hv : strValueNoComma kv.2 = true) :
    ',' ∉ (pairString kv).data := by
  rw [pairString_data]
  intro hc
  rcases List.mem_append.mp hc with h | h
  · exact hk h
  · rcases List.mem_cons.mp h with h | h
    · exact absurd h (by decide)
    · exact renderedValue_no_comma hv h

theorem pairString_data_ne_nil (kv : String × Value) :
    (pairString kv).data ≠ [] := by
  rw [pairString_data]; simp

theorem format_kvp_data_ne_nil (kv : String × Value)
    (rest : List (String × Value)) :
    (_format_kvp (kv :: rest)).data ≠ [] := by
  cases rest with
  | nil =>
    simpa [_format_kvp, joinSep] using pairString_data_ne_nil kv
  | cons r rs =>
    simp only [_format_kvp, List.map_cons, joinSep, String.data_append]
    intro hcon
    exact pairString_data_ne_nil kv
      (List.append_eq_nil.mp (List.append_eq_nil.mp hcon).1).1

end Logutil

namespace Logutil

/-! Lemmas about the status field and the templates. -/

theorem status_not_mem (b : Bool) (m : MType) :
    Piece.status ∉ _MESSAGE_FORMATS b m := by
  cases b <;> cases m <;> decide

theorem pyFormat_status_irrel {tpl : List Piece} (h : Piece.status ∉ tpl)
    (ts fn kv du : String) (s1 s2 : Int) :
    pyFormat tpl ⟨ts, fn, kv, du, s1⟩ = pyFormat tpl ⟨ts, fn, kv, du, s2⟩ := by
  unfold pyFormat
  congr 1
  apply List.map_congr_left
  intro p hp
  cases p <;> first | rfl | exact absurd hp h

end Logutil

namespace Logutil

/-- C7: calling end with no start timestamp skips duration computation
and, in either template mode, emits exactly the exit-without-duration
message, the name followed by ".end ; " and the encoded attribute
fragment, with no duration field. -/
theorem c7_end_without_start (fmtTs : Rat → String) (inclTs : Bool)
    (dl : Int) (name : String) (level : Option Int) (status : Int)
    (kvp : List (String × Value)) (w : World) :
    (end_ fmtTs inclTs dl name none level status kvp w).log =
      w.log ++ [(level.getD dl, name ++ ".end" ++ _KVPSECSEP ++ kvpStringOf kvp)] := by
  cases inclTs <;> rfl

/-- C2: with the timestamp-including template family selected, end
called without a start timestamp emits a message that carries no
timestamp at all: on a concrete call the message is exactly
"job.end ; ", which cannot begin with an ISO-8601 timestamp since its
first character is not a digit.  This contradicts the claim (and the
source's own comment that the flag makes every message include its own
timestamp): the with-timestamp exit-without-duration template in
`_MESSAGE_FORMATS` has no timestamp placeholder. -/
theorem c2_exit_nodur_no_timestamp :
    (∀ (fmtTs : Rat → String) (dl : Int) (w : World),
      (end_ fmtTs true dl "job" none none 0 [] w).log =
        w.log ++ [(dl, "job.end ; ")]) ∧
    headDigit "job.end ; " = false ∧
    Piece.timestamp ∉ _MESSAGE_FORMATS true MType.exit_nodur := by
  exact ⟨fun fmtTs dl w => rfl, by decide, by decide⟩

/-- C3 counterexample: the status code does not appear as a formatted
field in the emitted message.  Calling end with status_code 7 on a
concrete input emits exactly "job.end ; ", which does not contain the
character 7. -/
theorem c3_status_absent_counterexample :
    (end_ tsConst false 20 "job" none none 7 [] w0).log =
      [(20, "job.end ; ")] ∧ '7' ∉ "job.end ; ".data := by
  exact ⟨rfl, by decide⟩

/-- C3 amended: the status_code argument is accepted and placed in the
formatting dictionary, but no default template references it, so it is
never rendered; the formatter never interprets or branches on it — for
any two status codes the entire observable outcome of end (template,
severity, message, state) is identical. -/
theorem c3_status_opaque (fmtTs : Rat → String) (inclTs : Bool) (dl : Int)
    (name : String) (t0 : Option Rat) (level : Option Int) (s1 s2 : Int)
    (kvp : List (String × Value)) (w : World) :
    end_ fmtTs inclTs dl name t0 level s1 kvp w =
      end_ fmtTs inclTs dl name t0 level s2 kvp w := by
  cases t0 with
  | none =>
    simp only [end_, _default_message]
    rw [pyFormat_status_irrel (status_not_mem inclTs MType.exit_nodur)]
  | some t0v =>
    simp only [end_, _default_message]
    rw [pyFormat_status_irrel (status_not_mem inclTs MType.exit)]

/-- C9 counterexample: end also reads the timing source (the claim says
only start and event do): a concrete end call consumes one reading. -/
theorem c9_end_reads_clock_counterexample :
    (end_ tsConst false 20 "job" none none 0 [] w0).tick = w0.tick + 1 ∧
      w0.tick + 1 ≠ w0.tick := by
  exact ⟨rfl, by decide⟩

/-- C9 amended: each single call to event, start, or end performs
exactly one backend emission, at the supplied severity or the
module-wide default, and each of the three — end included — reads the
timing source exactly once per call; no other externally visible state
is modified. -/
theorem c9_effects (fmtTs : Rat → String) (inclTs : Bool) (dl : Int)
    (name : String) (level : Option Int) (fmt : Option (List Piece))
    (status : Int) (t0 : Option Rat) (kvp : List (String × Value))
    (w : World) :
    (∃ m, (event fmtTs inclTs dl name level fmt kvp w).2 =
        ⟨w.times, w.tick + 1, w.log ++ [(level.getD dl, m)]⟩) ∧
    (∃ m, (start fmtTs inclTs dl name level kvp w).2 =
        ⟨w.times, w.tick + 1, w.log ++ [(level.getD dl, m)]⟩) ∧
    (∃ m, end_ fmtTs inclTs dl name t0 level status kvp w =
        ⟨w.times, w.tick + 1, w.log ++ [(level.getD dl, m)]⟩) := by
  refine ⟨⟨_, rfl⟩, ⟨_, rfl⟩, ?_⟩
  cases t0 with
  | none => exact ⟨_, rfl⟩
  | some t0v => exact ⟨_, rfl⟩

end Logutil

namespace Logutil

/-- C8: the wrapper produced by wrap_func (and wrap_method) calls
start, invokes the original callable, calls end with the timestamp
handle returned by start, and returns the callable's result unchanged;
when the callable raises, the exception propagates unmodified, the end
emission is skipped, and the state is exactly the state after the
start emission. -/
theorem c8_wrapper {α ε β σm : Type} (fmtTs : Rat → String) (inclTs : Bool)
    (dl : Int) (nm : Option String) (lvl : Int)
    (kvp : List (String × Value)) (f : PyFunc α ε β) (x : α)
    (g : PyMethod σm α ε β) (self : σm) (w : World) :
    (∀ r, f.call x = Except.ok r →
      wrap_func fmtTs inclTs dl nm lvl kvp f x w =
        (Except.ok r,
         end_ fmtTs inclTs dl (nm.getD f.fname)
           (some ((start fmtTs inclTs dl (nm.getD f.fname) (some lvl) kvp w).1))
           (some lvl) 0 kvp
           ((start fmtTs inclTs dl (nm.getD f.fname) (some lvl) kvp w).2))) ∧
    (∀ e, f.call x = Except.error e →
      wrap_func fmtTs inclTs dl nm lvl kvp f x w =
        (Except.error e,
         (start fmtTs inclTs dl (nm.getD f.fname) (some lvl) kvp w).2)) ∧
    (∀ r, g.call self x = Except.ok r →
      wrap_method fmtTs inclTs dl nm lvl kvp g self x w =
        (Except.ok r,
         end_ fmtTs inclTs dl (nm.getD g.fname)
           (some ((start fmtTs inclTs dl (nm.getD g.fname) (some lvl) kvp w).1))
           (some lvl) 0 kvp
           ((start fmtTs inclTs dl (nm.getD g.fname) (some lvl) kvp w).2))) ∧
    (∀ e, g.call self x = Except.error e →
      wrap_method fmtTs inclTs dl nm lvl kvp g self x w =
        (Except.error e,
         (start fmtTs inclTs dl (nm.getD g.fname) (some lvl) kvp w).2)) := by
  refine ⟨?_, ?_, ?_, ?_⟩ <;> intro v hv <;>
    simp [wrap_func, wrap_method, hv]

/-- Concrete successful function for the wrapper witness. -/
def fOk : PyFunc Nat String Nat := ⟨"f", fun n => Except.ok (n + 1)⟩

/-- Concrete failing function for the wrapper witness. -/
def fErr : PyFunc Nat String Nat := ⟨"f", fun _ => Except.error "boom"⟩

/-- Concrete successful method for the wrapper witness. -/
def mOk : PyMethod Nat Nat String Nat := ⟨"m", fun s n => Except.ok (s + n)⟩

/-- Concrete failing method for the wrapper witness. -/
def mErr : PyMethod Nat Nat String Nat := ⟨"m", fun _ _ => Except.error "bang"⟩

/-- Witness for C8 at concrete callables: a succeeding and a failing
function and method. -/
theorem c8_wrapper_witness :
    (wrap_func tsConst false 20 none 20 [] fOk 3 w0 =
      (Except.ok 4,
       end_ tsConst false 20 "f" (some ((start tsConst false 20 "f" (some 20) [] w0).1))
         (some 20) 0 [] ((start tsConst false 20 "f" (some 20) [] w0).2))) ∧
    (wrap_func tsConst false 20 none 20 [] fErr 3 w0 =
      (Except.error "boom", (start tsConst false 20 "f" (some 20) [] w0).2)) ∧
    (wrap_method tsConst false 20 none 20 [] mOk 1 3 w0 =
      (Except.ok 4,
       end_ tsConst false 20 "m" (some ((start tsConst false 20 "m" (some 20) [] w0).1))
         (some 20) 0 [] ((start tsConst false 20 "m" (some 20) [] w0).2))) ∧
    (wrap_method tsConst false 20 none 20 [] mErr 1 3 w0 =
      (Except.error "bang", (start tsConst false 20 "m" (some 20) [] w0).2)) :=
  ⟨(c8_wrapper tsConst false 20 none 20 [] fOk 3 mOk 1 w0).1 4 rfl,
   (c8_wrapper tsConst false 20 none 20 [] fErr 3 mOk 1 w0).2.1 "boom" rfl,
   (c8_wrapper tsConst false 20 none 20 [] fOk 3 mOk 1 w0).2.2.1 4 rfl,
   (c8_wrapper tsConst false 20 none 20 [] fOk 3 mErr 1 w0).2.2.2 "bang" rfl⟩

/-- C10: the wrapping combinators default their severity to the fixed
constant logging.INFO, not to the module default: the outcome of an
invocation of a default-severity wrapped callable is unchanged when the
module default severity changes, and its entry/exit emissions carry
severity logging.INFO, while direct event/start/end calls without an
explicit level emit at the module default severity. -/
theorem c10_wrapper_severity {α ε β σm : Type} (fmtTs : Rat → String)
    (inclTs : Bool) (dl dl' : Int) (nm : Option String) (nmStr : String)
    (kvp : List (String × Value)) (f : PyFunc α ε β) (x : α)
    (g : PyMethod σm α ε β) (self : σm) (w : World) :
    wrap_func_default fmtTs inclTs dl nm kvp f x w =
      wrap_func_default fmtTs inclTs dl' nm kvp f x w ∧
    wrap_method_default fmtTs inclTs dl nm kvp g self x w =
      wrap_method_default fmtTs inclTs dl' nm kvp g self x w ∧
    (wrap_func_default fmtTs inclTs dl nm kvp f x w).2.log.map Prod.fst =
      w.log.map Prod.fst ++ (match f.call x with
        | Except.ok _ => [loggingINFO, loggingINFO]
        | Except.error _ => [loggingINFO]) ∧
    (∃ m, (event fmtTs inclTs dl nmStr none none kvp w).2.log =
      w.log ++ [(dl, m)]) ∧
    (∃ m, (start fmtTs inclTs dl nmStr none kvp w).2.log =
      w.log ++ [(dl, m)]) ∧
    (∃ m, (end_ fmtTs inclTs dl nmStr none none 0 kvp w).log =
      w.log ++ [(dl, m)]) := by
  refine ⟨rfl, rfl, ?_, ⟨_, rfl⟩, ⟨_, rfl⟩, ⟨_, rfl⟩⟩
  cases hv : f.call x with
  | ok r =>
    simp [wrap_func_default, wrap_func, hv, end_, start, time_time,
      logger_log, List.append_assoc]
  | error e =>
    simp [wrap_func_default, wrap_func, hv, start, time_time, logger_log]

end Logutil

namespace Logutil

theorem replaceCommaChars_mem_comma {l : List Char} (h : ',' ∈ l) :
    ',' ∈ replaceCommaChars l := by
  induction l with
  | nil => cases h
  | cons c cs ih =>
    by_cases hc : c = ','
    · simp [replaceCommaChars, hc]
    · rcases List.mem_cons.mp h with h1 | h1
      · exact absurd h1.symm hc
      · simp [replaceCommaChars, hc, ih h1]

theorem replaceCommaChars_eq_flatMap (l : List Char) :
    replaceCommaChars l =
      l.flatMap (fun c => if c = ',' then ['\\', c] else [c]) := by
  induction l with
  | nil => simp [replaceCommaChars]
  | cons c cs ih =>
    by_cases hc : c = ',' <;> simp [replaceCommaChars, hc, ih]

/-- C6: a string value containing the pair separator is escaped by
inserting a backslash immediately before every comma occurrence (the
flat-map characterization), while a non-empty string value free of the
pair separator is rendered unchanged, with no escaping. -/
theorem c6_escaping (s t : String) (hs : ',' ∈ s.data) (ht : ',' ∉ t.data)
    (htne : t ≠ "") :
    (renderedValue (Value.vStr s)).data =
      s.data.flatMap (fun c => if c = ',' then ['\\', c] else [c]) ∧
    renderedValue (Value.vStr t) = t := by
  constructor
  · have hp : pyIn _KVPSEP s = true := (pyIn_kvpsep s).mpr hs
    simp only [renderedValue, hp, if_true]
    simpa [replaceComma] using replaceCommaChars_eq_flatMap s.data
  · have hf : pyIn _KVPSEP t = false := pyIn_kvpsep_false ht
    have hlen : ¬ t.length = 0 := by
      intro h0
      exact htne ((data_eq_nil_iff t).mp (List.length_eq_zero.mp h0))
    simp only [renderedValue, hf, Bool.false_eq_true, if_false, if_neg hlen]

/-- Witness for C6 at concrete strings. -/
theorem c6_escaping_witness :
    (renderedValue (Value.vStr "a,b")).data =
      "a,b".data.flatMap (fun c => if c = ',' then ['\\', c] else [c]) ∧
    renderedValue (Value.vStr "ab") = "ab" :=
  c6_escaping "a,b" "ab" (by decide) (by decide) (by decide)

/-- C4 counterexample: the claim's distinguishability part fails — the
non-empty two-character string value consisting of two apostrophes
encodes exactly like the empty string value. -/
theorem c4_empty_quotes_counterexample :
    _format_kvp [("k", Value.vStr emptyQuotes)] =
      _format_kvp [("k", Value.vStr "")] ∧ emptyQuotes ≠ "" := by
  exact ⟨by decide, by decide⟩

/-- C4 amended: an empty string value renders as the two-character
literal of two apostrophes, and this encoding differs from the
encoding of the same key with any non-empty string value other than
that two-character literal itself. -/
theorem c4_empty_encoding (k s : String) (h1 : s ≠ "") (h2 : s ≠ emptyQuotes) :
    renderedValue (Value.vStr "") = emptyQuotes ∧
    pairString (k, Value.vStr s) ≠ pairString (k, Value.vStr "") := by
  refine ⟨by decide, ?_⟩
  intro heq
  have hdata := congrArg String.data heq
  rw [pairString_data, pairString_data] at hdata
  have hswap : (renderedValue (Value.vStr s)).data =
      (renderedValue (Value.vStr "")).data := by
    have hc := List.append_cancel_left hdata
    simpa using hc
  have hs : renderedValue (Value.vStr s) = renderedValue (Value.vStr "") := by
    have := congrArg String.mk hswap
    simpa [strMkData] using this
  rw [show renderedValue (Value.vStr "") = emptyQuotes from by decide] at hs
  by_cases hcom : ',' ∈ s.data
  · have hp : pyIn _KVPSEP s = true := (pyIn_kvpsep s).mpr hcom
    simp only [renderedValue, hp, if_true] at hs
    have hmem : ',' ∈ (replaceComma s).data := by
      simpa [replaceComma] using replaceCommaChars_mem_comma hcom
    rw [hs] at hmem
    exact absurd hmem (by decide)
  · have hf : pyIn _KVPSEP s = false := pyIn_kvpsep_false hcom
    have hlen : ¬ s.length = 0 := by
      intro h0
      exact h1 ((data_eq_nil_iff s).mp (List.length_eq_zero.mp h0))
    simp only [renderedValue, hf, Bool.false_eq_true, if_false,
      if_neg hlen] at hs
    exact h2 hs

/-- Witness for C4 at a concrete key and value. -/
theorem c4_empty_encoding_witness :
    renderedValue (Value.vStr "") = emptyQuotes ∧
    pairString ("k", Value.vStr "x") ≠ pairString ("k", Value.vStr "") :=
  c4_empty_encoding "k" "x" (by decide) (by decide)

end Logutil

namespace Logutil

theorem splitKV_pair (kv : String × Value) (hk : '=' ∉ kv.1.data) :
    splitKV (pairString kv).data = (kv.1, renderedValue kv.2) := by
  rw [pairString_data]
  simp only [splitKV, splitKVChars_spec _ hk, strMkData]

/-- C1: for an AttributeSet whose names are free of the separator
characters (the caller contract on attribute names) and whose string
values do not contain the pair separator, encoding with `_format_kvp`
and then splitting the fragment on the pair separator and each pair at
the first key/value separator recovers exactly the original pairs,
with each value in its rendered string form. -/
theorem c1_kvp_roundtrip (d : List (String × Value))
    (hk : ∀ kv ∈ d, ',' ∉ (kv.1 : String).data ∧ '=' ∉ (kv.1 : String).data)
    (hv : ∀ kv ∈ d, strValueNoComma kv.2 = true) :
    decode_kvp (_format_kvp d) =
      d.map (fun kv => (kv.1, renderedValue kv.2)) := by
  induction d with
  | nil => rfl
  | cons kv rest ih =>
    have hk1 := hk kv (List.mem_cons_self kv rest)
    have hv1 := hv kv (List.mem_cons_self kv rest)
    have ihr := ih (fun x hx => hk x (List.mem_cons_of_mem kv hx))
      (fun x hx => hv x (List.mem_cons_of_mem kv hx))
    have hpnc : ',' ∉ (pairString kv).data := pairString_no_comma hk1.1 hv1
    cases rest with
    | nil =>
      have h1 : _format_kvp [kv] = pairString kv := rfl
      rw [h1]
      have hne : ¬ ((pairString kv).data.isEmpty = true) := by
        simp [List.isEmpty_iff, pairString_data_ne_nil kv]
      simp only [decode_kvp, if_neg hne]
      rw [splitCharList_of_not_mem hpnc]
      simp only [List.map_cons, List.map_nil]
      rw [splitKV_pair kv hk1.2]
    | cons r rs =>
      have hform : _format_kvp (kv :: r :: rs) =
          pairString kv ++ _KVPSEP ++ _format_kvp (r :: rs) := rfl
      rw [hform]
      have hdata : (pairString kv ++ _KVPSEP ++ _format_kvp (r :: rs)).data =
          (pairString kv).data ++ ',' :: (_format_kvp (r :: rs)).data := by
        simp [String.data_append, _KVPSEP]
      have hne : ¬ ((pairString kv ++ _KVPSEP ++
          _format_kvp (r :: rs)).data.isEmpty = true) := by
        rw [hdata]; simp
      simp only [decode_kvp, if_neg hne, hdata]
      rw [splitCharList_append hpnc]
      simp only [List.map_cons]
      rw [splitKV_pair kv hk1.2]
      have hrne : ¬ ((_format_kvp (r :: rs)).data.isEmpty = true) := by
        simp [List.isEmpty_iff, format_kvp_data_ne_nil r rs]
      simp only [decode_kvp, if_neg hrne] at ihr
      rw [ihr]
      simp

/-- Concrete AttributeSet for the round-trip witness, exercising a
value containing the key separator, a negative integer, an empty
string, a boolean and null. -/
def dEx : List (String × Value) :=
  [("alpha", Value.vStr "x=y"), ("beta", Value.vInt (-3)),
   ("gamma", Value.vStr ""), ("delta", Value.vBool true),
   ("eps", Value.vNone)]

/-- Witness for C1: the round trip evaluated on `dEx`. -/
theorem c1_kvp_roundtrip_witness :
    decode_kvp (_format_kvp dEx) =
      [("alpha", "x=y"), ("beta", "-3"), ("gamma", emptyQuotes),
       ("delta", "True"), ("eps", "None")] :=
  (c1_kvp_roundtrip dEx (by decide) (by decide)).trans (by decide)

end Logutil

namespace Logutil

theorem pad6_mem_digits (m : Nat) : ∀ ch ∈ (pad6 m).data, ch.isDigit = true := by
  intro ch h
  have h' : ch = (m / 100000 % 10).digitChar ∨ ch = (m / 10000 % 10).digitChar ∨
      ch = (m / 1000 % 10).digitChar ∨ ch = (m / 100 % 10).digitChar ∨
      ch = (m / 10 % 10).digitChar ∨ ch = (m % 10).digitChar := by
    simpa [pad6] using h
  rcases h' with rfl | rfl | rfl | rfl | rfl | rfl <;>
    exact digitChar_isDigit (Nat.mod_lt _ (by norm_num))

theorem natRepr_not_dot (n : Nat) : '.' ∉ (natRepr n).data := by
  intro h
  exact absurd (natRepr_digits n '.' h) (by decide)

theorem pad6_not_dot (m : Nat) : '.' ∉ (pad6 m).data := by
  intro h
  exact absurd (pad6_mem_digits m '.' h) (by decide)

theorem sixFracShape_format6f {q : Rat} (hq : 0 ≤ q) :
    sixFracShape (format6f q) = true := by
  have hneg : ¬ q < 0 := not_lt.mpr hq
  simp only [format6f, if_neg hneg]
  generalize (roundHalfEven (q * 1000000)).toNat = n
  have hdata : (("" : String) ++ natRepr (n / 1000000) ++ "." ++
      pad6 (n % 1000000)).data =
      (natRepr (n / 1000000)).data ++ '.' :: (pad6 (n % 1000000)).data := by
    simp [String.data_append]
  simp only [sixFracShape, hdata]
  rw [splitCharList_append (natRepr_not_dot _),
    splitCharList_of_not_mem (pad6_not_dot _)]
  have h1 : (natRepr (n / 1000000)).data.all Char.isDigit = true :=
    List.all_eq_true.mpr (fun ch h => natRepr_digits _ ch h)
  have h2 : (natRepr (n / 1000000)).data.isEmpty = false := by
    simp [natRepr, List.isEmpty_iff, natDigitsRev_ne_nil]
  have h3 : (pad6 (n % 1000000)).data.all Char.isDigit = true :=
    List.all_eq_true.mpr (fun ch h => pad6_mem_digits _ ch h)
  have h4 : (pad6 (n % 1000000)).data.length = 6 := rfl
  simp [h1, h2, h3, h4]

/-- C5: when end is given a start timestamp, the emitted message is the
exit-with-duration shape whose duration field is the current reading
minus the start timestamp rendered by the fixed six-fractional-digit
formatter; for a non-negative elapsed time the rendering is a
non-negative decimal with exactly six fractional digits, and an
elapsed time of exactly five seconds renders as 5.000000 for every
start instant. -/
theorem c5_duration_format (fmtTs : Rat → String) (inclTs : Bool) (dl : Int)
    (nm : String) (level : Option Int) (status : Int)
    (kvp : List (String × Value)) (w : World) (t0v : Rat)
    (h : t0v ≤ w.times w.tick) :
    (end_ fmtTs inclTs dl nm (some t0v) level status kvp w).log =
      w.log ++ [(level.getD dl,
        (if inclTs then fmtTs (w.times w.tick) ++ " " else "") ++ nm ++
          ".end (" ++ format6f (w.times w.tick - t0v) ++ ")" ++ _KVPSECSEP ++
          kvpStringOf kvp)] ∧
    sixFracShape (format6f (w.times w.tick - t0v)) = true ∧
    ∀ t : Rat, format6f (t + 5 - t) = "5.000000" := by
  refine ⟨?_, sixFracShape_format6f (sub_nonneg.mpr h), ?_⟩
  · cases inclTs <;> rfl
  · intro t
    rw [show t + 5 - t = (5 : Rat) by ring]
    with_unfolding_all decide

/-- Witness for C5 at a concrete world whose timing source reads 7 with
a start timestamp of 2. -/
theorem c5_duration_format_witness :
    ((2 : Rat) ≤ (fun _ => (7 : Rat)) 0) ∧
    (end_ tsConst false 20 "job" (some 2) none 0 [] ⟨fun _ => 7, 0, []⟩).log =
      [(20, "job.end (5.000000) ; ")] ∧
    sixFracShape (format6f ((7 : Rat) - 2)) = true ∧
    format6f ((3 : Rat) + 5 - 3) = "5.000000" := by
  have h : (2 : Rat) ≤ (fun _ => (7 : Rat)) 0 := by with_unfolding_all decide
  have happ := c5_duration_format tsConst false 20 "job" none 0 []
    ⟨fun _ => 7, 0, []⟩ 2 h
  refine ⟨h, ?_, happ.2.1, happ.2.2 3⟩
  rw [happ.1]
  with_unfolding_all decide

end Logutil
